import Mathlib

/-!
# Shallow embedding of `src/spotify.c` (spotify-dbus)

This file embeds, in Lean, the core of the C program `spotify.c`:

* the typed value store (`MetadataArray` in C, here a `List MetadataItem`
  together with `insert_metadata`, `get_value`, `init_metadata_array`),
* the recursive tagged-value decoder (`process_variant`),
* the property-fetch orchestrator and the two commands
  (`get_dbus_metadata`, `command_track`, `command_metadata`).

Modelling conventions:

* The C store is a fixed array of `MAXSIZE` slots plus a cursor
  `curIndex`; only slots `0 ..< curIndex` are meaningful, so the store is
  embedded as the list of those slots in order.  `curIndex` is the list's
  length.
* The `void *value` payload of an item is embedded as the inductive
  `Value`; `strdup`/`memcpy` duplication is value copying, which is
  implicit for pure data.  The 8 raw bytes memcpy'd for a
  `DBUS_TYPE_DOUBLE` payload are carried as an opaque 64-bit pattern
  (`Value.vbits`): the C code never computes with the double, it only
  copies its bytes.
* Messages printed to `stdout`/`stderr` (diagnostics) are collected in a
  `List String` returned next to the updated store.
* The wire-level tagged value (`DBusMessageIter` contents) is the
  inductive `Variant`; `Variant.vother t` stands for an iterator whose
  discriminant `t` is none of the five recognized kinds, which the C
  `switch` sends to its `default` branch.
* D-Bus type discriminants are the integer codes of `dbus.h`
  (ASCII of the type letters).
-/

set_option linter.unusedVariables false

namespace Spotify

/-- `DBUS_TYPE_STRING` = ASCII 's'. -/
def DBUS_TYPE_STRING : Int := 115

/-- `DBUS_TYPE_INT32` = ASCII 'i'. -/
def DBUS_TYPE_INT32 : Int := 105

/-- `DBUS_TYPE_UINT64` = ASCII 't'. -/
def DBUS_TYPE_UINT64 : Int := 116

/-- `DBUS_TYPE_DOUBLE` = ASCII 'd'. -/
def DBUS_TYPE_DOUBLE : Int := 100

/-- `DBUS_TYPE_ARRAY` = ASCII 'a'. -/
def DBUS_TYPE_ARRAY : Int := 97

/-- `#define MAXSIZE 100`: the store's fixed capacity. -/
def MAXSIZE : Nat := 100

/-- The payload stored behind a `MetadataItem`'s `void *value`.
`vstr` is a `strdup`'d C string, `vi32` a 32-bit signed integer,
`vu64` a 64-bit unsigned integer, and `vbits` the raw 8 bytes
memcpy'd for a double payload (opaque: the program never reads them
back as a number). -/
inductive Value where
  | vstr : String → Value
  | vi32 : Int → Value
  | vu64 : Nat → Value
  | vbits : Nat → Value
  deriving DecidableEq, Repr

/-- C struct `MetadataItem { char *key; int dbus_type; void *value; }`. -/
structure MetadataItem where
  key : String
  dbus_type : Int
  value : Value
  deriving DecidableEq, Repr

/-- C enum `GetMetadataResult`. -/
inductive GetMetadataResult where
  | VALUE_NOT_FOUND
  | VALUE_FOUND
  | WRONG_TYPE
  deriving DecidableEq, Repr

/-- `init_metadata_array`: the store starts empty (`curIndex = 0`). -/
def init_metadata_array : List MetadataItem := []

/-- C `insert_metadata`: if the store is full (`curIndex >= MAXSIZE`)
print a diagnostic on stderr and return with the store unchanged;
otherwise append a new item whose key and value are duplicated into
the store, and advance `curIndex`.  Returns the updated store and the
diagnostics emitted.  The C function always returns normally (it never
aborts); totality of this definition reflects that. -/
def insert_metadata (arr : List MetadataItem) (key : String) (dbus_type : Int)
    (value : Value) : List MetadataItem × List String :=
  if MAXSIZE ≤ arr.length then
    (arr, ["ERROR: metadata array is full"])
  else
    (arr ++ [⟨key, dbus_type, value⟩], [])

/-- C `get_value`: linear scan in insertion order for the first item whose
key matches.  On the first key match: if its `dbus_type` differs from the
requested one, return `WRONG_TYPE` immediately; otherwise copy the value
out for the three supported kinds (INT32, STRING — via a fresh `strdup` —
and UINT64) and return `VALUE_FOUND`; any other requested type falls into
the `default:` branch and returns `VALUE_NOT_FOUND`.  If no key matches,
return `VALUE_NOT_FOUND`.

The second component models the caller's `outValue` location: `none`
means the function returned without writing through `outValue`, and
`some v` means `v` was written there. -/
def get_value : List MetadataItem → String → Int → GetMetadataResult × Option Value
  | [], _, _ => (.VALUE_NOT_FOUND, none)
  | m :: rest, key, dbus_type =>
    if m.key = key then
      if m.dbus_type ≠ dbus_type then
        (.WRONG_TYPE, none)
      else if dbus_type = DBUS_TYPE_INT32 then
        (.VALUE_FOUND, some m.value)
      else if dbus_type = DBUS_TYPE_STRING then
        (.VALUE_FOUND, some m.value)
      else if dbus_type = DBUS_TYPE_UINT64 then
        (.VALUE_FOUND, some m.value)
      else
        (.VALUE_NOT_FOUND, none)
    else
      get_value rest key dbus_type

/-- A wire-level tagged value as traversed by `process_variant`:
the five recognized discriminants (string, int32, uint64, double,
array-of-tagged-values) plus `vother t`, an iterator whose discriminant
`t` is unrecognized, which the C `switch` routes to `default:`. -/
inductive Variant where
  | vstr : String → Variant
  | vint32 : Int → Variant
  | vuint64 : Nat → Variant
  | vdouble : Nat → Variant
  | varray : List Variant → Variant
  | vother : Int → Variant

mutual

/-- C `process_variant`: inspect the discriminant; for the four primitive
kinds extract the value and (since `output != NULL` after the switch)
insert it into the store under `key` with the variant's own discriminant;
for an array, recurse into each element in order with the same `key`
(`output` stays NULL, so no insertion for the array itself); for an
unrecognized discriminant, print a diagnostic naming it and insert
nothing.  Returns the updated store and the diagnostics emitted. -/
def process_variant : Variant → String → List MetadataItem → List MetadataItem × List String
  | .vstr s, key, meta => insert_metadata meta key DBUS_TYPE_STRING (.vstr s)
  | .vint32 n, key, meta => insert_metadata meta key DBUS_TYPE_INT32 (.vi32 n)
  | .vuint64 n, key, meta => insert_metadata meta key DBUS_TYPE_UINT64 (.vu64 n)
  | .vdouble b, key, meta => insert_metadata meta key DBUS_TYPE_DOUBLE (.vbits b)
  | .varray elems, key, meta => process_variant_list elems key meta
  | .vother t, _, meta => (meta, ["\tUnhandled variant type: " ++ toString t])

/-- The `while` loop of `process_variant`'s array case: process each
element of the recursed-into array in order, threading the store. -/
def process_variant_list : List Variant → String → List MetadataItem → List MetadataItem × List String
  | [], _, meta => (meta, [])
  | v :: rest, key, meta =>
    let r := process_variant v key meta
    let r2 := process_variant_list rest key r.1
    (r2.1, r.2 ++ r2.2)

end

/-- The D-Bus reply observed by `get_dbus_metadata`: either the reply has
no arguments (`dbus_message_iter_init` returns false), or it carries the
outer dictionary as an ordered list of (key, tagged value) entries. -/
abbrev Reply : Type := Option (List (String × Variant))

/-- The dictionary-walking loop of `get_dbus_metadata`: for each
dictionary entry read the key, recurse to the variant and decode it. -/
def process_dict : List (String × Variant) → List MetadataItem → List MetadataItem × List String
  | [], meta => (meta, [])
  | (key, v) :: rest, meta =>
    let r := process_variant v key meta
    let r2 := process_dict rest r.1
    (r2.1, r.2 ++ r2.2)

/-- C `get_dbus_metadata`, after the blocking call succeeded: if the reply
has arguments, walk the outer dictionary decoding every entry; otherwise
print "Reply does not have arguments!" and leave the store as it was.
Either way the function returns normally. -/
def get_dbus_metadata (reply : Reply) (metadata : List MetadataItem) :
    List MetadataItem × List String :=
  match reply with
  | none => (metadata, ["Reply does not have arguments!"])
  | some entries => process_dict entries metadata

/-- C `command_track`: build a fresh store from the reply, look up
"xesam:artist" and "xesam:title" as strings, and either print
"ARTIST - TITLE" and return 0, or print a diagnostic and return 1.
Result: (retval, line printed to stdout if any). -/
def command_track (reply : Reply) : Int × Option String :=
  let metadata := (get_dbus_metadata reply init_metadata_array).1
  let ret1 := get_value metadata "xesam:artist" DBUS_TYPE_STRING
  let ret2 := get_value metadata "xesam:title" DBUS_TYPE_STRING
  if ret1.1 ≠ .VALUE_FOUND ∨ ret2.1 ≠ .VALUE_FOUND then
    (1, none)
  else
    match ret1.2, ret2.2 with
    | some (.vstr artist), some (.vstr title) => (0, some (artist ++ " - " ++ title))
    | _, _ => (0, none)

/-- C `command_metadata`: build a fresh store from the reply, print it
(`print_metadata_array`), and return `retval`, which is initialized to 0
and never reassigned.  Result: (retval, the store that gets printed). -/
def command_metadata (reply : Reply) : Int × List MetadataItem :=
  let metadata := (get_dbus_metadata reply init_metadata_array).1
  (0, metadata)

/-- A sequence of insert operations (key, dbus_type, value) applied to an
initially empty store, keeping only the store (diagnostics dropped as the
C caller does). -/
def runInserts (ops : List (String × Int × Value)) : List MetadataItem :=
  ops.foldl (fun meta op => (insert_metadata meta op.1 op.2.1 op.2.2).1) init_metadata_array

mutual

/-- Modelled from the spec's words, for comparison with `process_variant`
(refinement): the store entries that decoding a tagged value under key
`key` should produce — one entry per leaf primitive, in depth-first
original order, all keyed `key`, each with the leaf's kind and value;
containers and unrecognized kinds contribute no entry of their own. -/
def leafEntries (key : String) : Variant → List MetadataItem
  | .vstr s => [⟨key, DBUS_TYPE_STRING, .vstr s⟩]
  | .vint32 n => [⟨key, DBUS_TYPE_INT32, .vi32 n⟩]
  | .vuint64 n => [⟨key, DBUS_TYPE_UINT64, .vu64 n⟩]
  | .vdouble b => [⟨key, DBUS_TYPE_DOUBLE, .vbits b⟩]
  | .varray elems => leafEntriesList key elems
  | .vother _ => []

/-- List version of `leafEntries` for the elements of an array variant. -/
def leafEntriesList (key : String) : List Variant → List MetadataItem
  | [] => []
  | v :: rest => leafEntries key v ++ leafEntriesList key rest

end

/-! ## Helper lemmas -/

/-- An insert below capacity appends the new item and emits nothing. -/
theorem insert_metadata_lt (arr : List MetadataItem) (key : String) (dbus_type : Int)
    (value : Value) (h : arr.length < MAXSIZE) :
    insert_metadata arr key dbus_type value = (arr ++ [⟨key, dbus_type, value⟩], []) := by
  simp [insert_metadata, Nat.not_le_of_lt h]

/-- An insert at or above capacity is a no-op apart from the diagnostic. -/
theorem insert_metadata_ge (arr : List MetadataItem) (key : String) (dbus_type : Int)
    (value : Value) (h : MAXSIZE ≤ arr.length) :
    insert_metadata arr key dbus_type value = (arr, ["ERROR: metadata array is full"]) := by
  simp [insert_metadata, h]

/-- If no item's key matches, `get_value` scans to the end and reports
`VALUE_NOT_FOUND` without writing through `outValue`. -/
theorem get_value_of_find_none (arr : List MetadataItem) (key : String) (ty : Int)
    (h : arr.find? (fun m => m.key == key) = none) :
    get_value arr key ty = (.VALUE_NOT_FOUND, none) := by
  induction arr with
  | nil => rfl
  | cons m rest ih =>
    by_cases hk : m.key = key
    · rw [List.find?_cons_of_pos _ (by simpa using hk)] at h
      exact absurd h (by simp)
    · rw [List.find?_cons_of_neg _ (by simpa using hk)] at h
      simpa [get_value, hk] using ih h

/-- Characterization of `get_value` at the first key match: the result is
decided entirely by that item's `dbus_type` against the requested one,
mirroring the branch structure of the C `switch`. -/
theorem get_value_of_find_some (arr : List MetadataItem) (key : String) (ty : Int)
    (e : MetadataItem) (h : arr.find? (fun m => m.key == key) = some e) :
    get_value arr key ty =
      if e.dbus_type ≠ ty then (.WRONG_TYPE, none)
      else if ty = DBUS_TYPE_INT32 then (.VALUE_FOUND, some e.value)
      else if ty = DBUS_TYPE_STRING then (.VALUE_FOUND, some e.value)
      else if ty = DBUS_TYPE_UINT64 then (.VALUE_FOUND, some e.value)
      else (.VALUE_NOT_FOUND, none) := by
  induction arr with
  | nil => simp at h
  | cons m rest ih =>
    by_cases hk : m.key = key
    · rw [List.find?_cons_of_pos _ (by simpa using hk)] at h
      obtain rfl : m = e := by simpa using h
      simp [get_value, hk]
    · rw [List.find?_cons_of_neg _ (by simpa using hk)] at h
      simpa [get_value, hk] using ih h

/-- A first match in a prefix stays the first match after appending. -/
theorem find_some_of_append {arr later : List MetadataItem} {key : String}
    {e : MetadataItem} (h : arr.find? (fun m => m.key == key) = some e) :
    (arr ++ later).find? (fun m => m.key == key) = some e := by
  rw [List.find?_append, h]
  rfl

/-- At the first key match with the matching `dbus_type`, any of the three
supported kinds yields `VALUE_FOUND` with the matched item's value. -/
theorem get_value_found_of_find (arr : List MetadataItem) (key : String) (ty : Int)
    (e : MetadataItem) (h : arr.find? (fun m => m.key == key) = some e)
    (hkind : e.dbus_type = ty)
    (hsupp : ty = DBUS_TYPE_STRING ∨ ty = DBUS_TYPE_INT32 ∨ ty = DBUS_TYPE_UINT64) :
    get_value arr key ty = (.VALUE_FOUND, some e.value) := by
  rw [get_value_of_find_some arr key ty e h]
  subst hkind
  rcases hsupp with h1 | h1 | h1 <;>
    simp [h1, DBUS_TYPE_STRING, DBUS_TYPE_INT32, DBUS_TYPE_UINT64]

/-- The store component of decoding an array's elements composes over
list append; diagnostics aside, siblings act on the store in sequence. -/
theorem process_variant_list_append (l1 l2 : List Variant) (key : String) :
    ∀ meta : List MetadataItem,
      (process_variant_list (l1 ++ l2) key meta).1 =
        (process_variant_list l2 key (process_variant_list l1 key meta).1).1 := by
  induction l1 with
  | nil => intro meta; rfl
  | cons v rest ih =>
    intro meta
    simp only [List.cons_append, process_variant_list]
    exact ih (process_variant v key meta).1

mutual

/-- Refinement of `process_variant` against the spec-side `leafEntries`:
as long as capacity is never hit, decoding appends exactly the leaf
entries, in depth-first original order. -/
theorem process_variant_leaves : ∀ (v : Variant) (key : String) (meta : List MetadataItem),
    meta.length + (leafEntries key v).length ≤ MAXSIZE →
    (process_variant v key meta).1 = meta ++ leafEntries key v
  | .vstr s, key, meta, h => by
    simp only [leafEntries, List.length_cons, List.length_nil] at h
    simp [process_variant, leafEntries,
      insert_metadata_lt meta key DBUS_TYPE_STRING (.vstr s) (by omega)]
  | .vint32 n, key, meta, h => by
    simp only [leafEntries, List.length_cons, List.length_nil] at h
    simp [process_variant, leafEntries,
      insert_metadata_lt meta key DBUS_TYPE_INT32 (.vi32 n) (by omega)]
  | .vuint64 n, key, meta, h => by
    simp only [leafEntries, List.length_cons, List.length_nil] at h
    simp [process_variant, leafEntries,
      insert_metadata_lt meta key DBUS_TYPE_UINT64 (.vu64 n) (by omega)]
  | .vdouble b, key, meta, h => by
    simp only [leafEntries, List.length_cons, List.length_nil] at h
    simp [process_variant, leafEntries,
      insert_metadata_lt meta key DBUS_TYPE_DOUBLE (.vbits b) (by omega)]
  | .varray elems, key, meta, h => by
    simp only [leafEntries] at h ⊢
    exact process_variant_list_leaves elems key meta h
  | .vother t, key, meta, h => by
    simp [process_variant, leafEntries]

/-- List version of `process_variant_leaves`, for an array's elements. -/
theorem process_variant_list_leaves : ∀ (l : List Variant) (key : String) (meta : List MetadataItem),
    meta.length + (leafEntriesList key l).length ≤ MAXSIZE →
    (process_variant_list l key meta).1 = meta ++ leafEntriesList key l
  | [], key, meta, h => by simp [process_variant_list, leafEntriesList]
  | v :: rest, key, meta, h => by
    simp only [leafEntriesList, List.length_append] at h
    have e1 : (process_variant v key meta).1 = meta ++ leafEntries key v :=
      process_variant_leaves v key meta (by omega)
    have e2 : (process_variant_list rest key (process_variant v key meta).1).1 =
        (meta ++ leafEntries key v) ++ leafEntriesList key rest := by
      rw [e1]
      exact process_variant_list_leaves rest key (meta ++ leafEntries key v)
        (by simp; omega)
    simp only [process_variant_list, leafEntriesList]
    rw [e2, List.append_assoc]

end

mutual

/-- Every item present after decoding was already in the store or carries
one of the four primitive discriminants the decoder inserts. -/
theorem process_variant_kinds : ∀ (v : Variant) (key : String) (meta : List MetadataItem)
    (e : MetadataItem), e ∈ (process_variant v key meta).1 →
    e ∈ meta ∨ e.dbus_type = DBUS_TYPE_STRING ∨ e.dbus_type = DBUS_TYPE_INT32 ∨
      e.dbus_type = DBUS_TYPE_UINT64 ∨ e.dbus_type = DBUS_TYPE_DOUBLE
  | .vstr s, key, meta, e, h => by
    simp only [process_variant, insert_metadata] at h
    split at h
    · exact Or.inl h
    · rcases List.mem_append.1 h with h1 | h1
      · exact Or.inl h1
      · simp at h1; subst h1; simp
  | .vint32 n, key, meta, e, h => by
    simp only [process_variant, insert_metadata] at h
    split at h
    · exact Or.inl h
    · rcases List.mem_append.1 h with h1 | h1
      · exact Or.inl h1
      · simp at h1; subst h1; simp
  | .vuint64 n, key, meta, e, h => by
    simp only [process_variant, insert_metadata] at h
    split at h
    · exact Or.inl h
    · rcases List.mem_append.1 h with h1 | h1
      · exact Or.inl h1
      · simp at h1; subst h1; simp
  | .vdouble b, key, meta, e, h => by
    simp only [process_variant, insert_metadata] at h
    split at h
    · exact Or.inl h
    · rcases List.mem_append.1 h with h1 | h1
      · exact Or.inl h1
      · simp at h1; subst h1; simp
  | .varray elems, key, meta, e, h =>
    process_variant_list_kinds elems key meta e h
  | .vother t, key, meta, e, h => Or.inl h

/-- List version of `process_variant_kinds`. -/
theorem process_variant_list_kinds : ∀ (l : List Variant) (key : String)
    (meta : List MetadataItem) (e : MetadataItem),
    e ∈ (process_variant_list l key meta).1 →
    e ∈ meta ∨ e.dbus_type = DBUS_TYPE_STRING ∨ e.dbus_type = DBUS_TYPE_INT32 ∨
      e.dbus_type = DBUS_TYPE_UINT64 ∨ e.dbus_type = DBUS_TYPE_DOUBLE
  | [], key, meta, e, h => Or.inl h
  | v :: rest, key, meta, e, h => by
    have h2 := process_variant_list_kinds rest key (process_variant v key meta).1 e h
    rcases h2 with h2 | h2
    · exact process_variant_kinds v key meta e h2
    · exact Or.inr h2

end

mutual

/-- Every spec-side leaf entry under `key` is keyed `key`. -/
theorem leafEntries_key : ∀ (v : Variant) (key : String) (e : MetadataItem),
    e ∈ leafEntries key v → e.key = key
  | .vstr s, key, e, h => by simp [leafEntries] at h; subst h; rfl
  | .vint32 n, key, e, h => by simp [leafEntries] at h; subst h; rfl
  | .vuint64 n, key, e, h => by simp [leafEntries] at h; subst h; rfl
  | .vdouble b, key, e, h => by simp [leafEntries] at h; subst h; rfl
  | .varray elems, key, e, h => leafEntriesList_key elems key e (by simpa [leafEntries] using h)
  | .vother t, key, e, h => by simp [leafEntries] at h

/-- List version of `leafEntries_key`. -/
theorem leafEntriesList_key : ∀ (l : List Variant) (key : String) (e : MetadataItem),
    e ∈ leafEntriesList key l → e.key = key
  | [], key, e, h => by simp [leafEntriesList] at h
  | v :: rest, key, e, h => by
    rcases List.mem_append.1 (by simpa [leafEntriesList] using h) with h1 | h1
    · exact leafEntries_key v key e h1
    · exact leafEntriesList_key rest key e h1

end

/-- Kinds of items produced by the dictionary-walking loop of
`get_dbus_metadata`: every item is pre-existing or carries one of the
four primitive discriminants. -/
theorem process_dict_kinds : ∀ (l : List (String × Variant)) (meta : List MetadataItem)
    (e : MetadataItem), e ∈ (process_dict l meta).1 →
    e ∈ meta ∨ e.dbus_type = DBUS_TYPE_STRING ∨ e.dbus_type = DBUS_TYPE_INT32 ∨
      e.dbus_type = DBUS_TYPE_UINT64 ∨ e.dbus_type = DBUS_TYPE_DOUBLE
  | [], meta, e, h => Or.inl h
  | (key, v) :: rest, meta, e, h => by
    have h2 := process_dict_kinds rest (process_variant v key meta).1 e h
    rcases h2 with h2 | h2
    · exact process_variant_kinds v key meta e h2
    · exact Or.inr h2

/-! ## Claim theorems -/

/-- C1: for every sequence of at most 100 inserts followed by a
`get(key, expectedKind)` call where the first entry in insertion order
whose key equals `key` also has kind `expectedKind` (one of String,
Int32, UInt64), `get_value` returns `VALUE_FOUND` with that
first-inserted entry's value, and the result is unchanged by any later
entries sharing the same key. -/
theorem c1_get_first_inserted (ops : List (String × Int × Value))
    (hlen : ops.length ≤ MAXSIZE) (key : String) (ty : Int) (e : MetadataItem)
    (hfind : (runInserts ops).find? (fun m => m.key == key) = some e)
    (hkind : e.dbus_type = ty)
    (hsupp : ty = DBUS_TYPE_STRING ∨ ty = DBUS_TYPE_INT32 ∨ ty = DBUS_TYPE_UINT64) :
    get_value (runInserts ops) key ty = (.VALUE_FOUND, some e.value) ∧
    ∀ later : List MetadataItem,
      get_value (runInserts ops ++ later) key ty = (.VALUE_FOUND, some e.value) :=
  ⟨get_value_found_of_find _ _ _ _ hfind hkind hsupp,
   fun later => get_value_found_of_find _ _ _ _ (find_some_of_append hfind) hkind hsupp⟩

/-- Witness for C1: two inserts under "k" (a string, then an int32);
`get_value` returns the first-inserted string, also after a further
duplicate-key entry is appended. -/
theorem c1_get_first_inserted_witness :
    get_value (runInserts [("k", DBUS_TYPE_STRING, Value.vstr "v"),
        ("k", DBUS_TYPE_INT32, Value.vi32 3)]) "k" DBUS_TYPE_STRING =
      (.VALUE_FOUND, some (Value.vstr "v")) ∧
    get_value (runInserts [("k", DBUS_TYPE_STRING, Value.vstr "v"),
        ("k", DBUS_TYPE_INT32, Value.vi32 3)] ++ [⟨"k", DBUS_TYPE_STRING, Value.vstr "w"⟩])
      "k" DBUS_TYPE_STRING = (.VALUE_FOUND, some (Value.vstr "v")) :=
  have h := c1_get_first_inserted
    [("k", DBUS_TYPE_STRING, Value.vstr "v"), ("k", DBUS_TYPE_INT32, Value.vi32 3)]
    (by decide) "k" DBUS_TYPE_STRING ⟨"k", DBUS_TYPE_STRING, Value.vstr "v"⟩
    (by decide) rfl (Or.inl rfl)
  ⟨h.1, h.2 [⟨"k", DBUS_TYPE_STRING, Value.vstr "w"⟩]⟩

/-- C3: the store's size never exceeds the fixed capacity of 100 under
any sequence of inserts, and an insert attempted at capacity leaves the
store entirely unchanged while emitting only the diagnostic (the
function returns normally; it never aborts). -/
theorem c3_capacity_invariant :
    (∀ ops : List (String × Int × Value), (runInserts ops).length ≤ MAXSIZE) ∧
    (∀ (arr : List MetadataItem) (key : String) (ty : Int) (v : Value),
      MAXSIZE ≤ arr.length →
      insert_metadata arr key ty v = (arr, ["ERROR: metadata array is full"])) := by
  constructor
  · intro ops
    have main : ∀ (l : List (String × Int × Value)) (arr : List MetadataItem),
        arr.length ≤ MAXSIZE →
        (l.foldl (fun meta op => (insert_metadata meta op.1 op.2.1 op.2.2).1) arr).length ≤
          MAXSIZE := by
      intro l
      induction l with
      | nil => intro arr h; exact h
      | cons op rest ih =>
        intro arr h
        rw [List.foldl_cons]
        apply ih
        show (insert_metadata arr op.1 op.2.1 op.2.2).1.length ≤ MAXSIZE
        by_cases hc : MAXSIZE ≤ arr.length
        · rw [insert_metadata_ge _ _ _ _ hc]; exact h
        · rw [insert_metadata_lt _ _ _ _ (by omega)]; simp; omega
    exact main ops init_metadata_array (by simp [init_metadata_array])
  · intro arr key ty v h
    exact insert_metadata_ge arr key ty v h

/-- Witness for C3: 101 inserts still leave at most 100 entries, and an
insert into a store of exactly 100 items is a diagnosed no-op. -/
theorem c3_capacity_invariant_witness :
    (runInserts (List.replicate 101 ("k", DBUS_TYPE_INT32, Value.vi32 0))).length ≤ MAXSIZE ∧
    insert_metadata (List.replicate 100 ⟨"k", DBUS_TYPE_INT32, Value.vi32 0⟩)
        "k" DBUS_TYPE_INT32 (Value.vi32 0) =
      (List.replicate 100 ⟨"k", DBUS_TYPE_INT32, Value.vi32 0⟩,
       ["ERROR: metadata array is full"]) :=
  ⟨c3_capacity_invariant.1 _,
   c3_capacity_invariant.2 _ "k" DBUS_TYPE_INT32 (Value.vi32 0) (by simp [MAXSIZE])⟩

/-- Counterexample to C4 as stated: with a store holding a String-kinded
entry under "k", a `get_value` for "k" with the unsupported expected kind
Float64 returns `WRONG_TYPE`, not `VALUE_NOT_FOUND` — the key match is
found first and its kind mismatch wins. -/
theorem c4_counterexample :
    get_value [⟨"k", DBUS_TYPE_STRING, Value.vstr "v"⟩] "k" DBUS_TYPE_DOUBLE =
      (.WRONG_TYPE, none) ∧
    GetMetadataResult.WRONG_TYPE ≠ GetMetadataResult.VALUE_NOT_FOUND :=
  ⟨by decide, by decide⟩

/-- C4 amended: `get_value` returns `VALUE_NOT_FOUND` when no entry's key
matches, and also when the first key-matching entry's kind equals the
expected kind but that kind is outside the supported retrieval set
{String, Int32, UInt64}; if the first key match's kind differs from the
expected kind, the result is `WRONG_TYPE` instead. -/
theorem c4_not_found_cases (arr : List MetadataItem) (key : String) (ty : Int) :
    (arr.find? (fun m => m.key == key) = none →
      get_value arr key ty = (.VALUE_NOT_FOUND, none)) ∧
    (∀ e : MetadataItem, arr.find? (fun m => m.key == key) = some e →
      e.dbus_type = ty → ty ≠ DBUS_TYPE_STRING → ty ≠ DBUS_TYPE_INT32 →
      ty ≠ DBUS_TYPE_UINT64 →
      get_value arr key ty = (.VALUE_NOT_FOUND, none)) := by
  refine ⟨fun h => get_value_of_find_none arr key ty h, fun e h hkind h1 h2 h3 => ?_⟩
  rw [get_value_of_find_some arr key ty e h]
  simp [hkind, h1, h2, h3]

/-- Witness for C4 (amended): a never-inserted key reports
`VALUE_NOT_FOUND`, and so does a Float64 lookup of a Float64-kinded
entry (kind outside the supported retrieval set). -/
theorem c4_not_found_cases_witness :
    get_value [⟨"k", DBUS_TYPE_DOUBLE, Value.vbits 1⟩] "absent" DBUS_TYPE_DOUBLE =
      (.VALUE_NOT_FOUND, none) ∧
    get_value [⟨"k", DBUS_TYPE_DOUBLE, Value.vbits 1⟩] "k" DBUS_TYPE_DOUBLE =
      (.VALUE_NOT_FOUND, none) :=
  ⟨(c4_not_found_cases [⟨"k", DBUS_TYPE_DOUBLE, Value.vbits 1⟩] "absent" DBUS_TYPE_DOUBLE).1
      (by decide),
   (c4_not_found_cases [⟨"k", DBUS_TYPE_DOUBLE, Value.vbits 1⟩] "k" DBUS_TYPE_DOUBLE).2
      ⟨"k", DBUS_TYPE_DOUBLE, Value.vbits 1⟩ (by decide) rfl (by decide) (by decide) (by decide)⟩

/-- C7: when the first entry in insertion order whose key matches has a
kind different from the expected kind, `get_value` returns `WRONG_TYPE`
(not `VALUE_NOT_FOUND`), and no later duplicate is examined — even if an
entry matching both key and kind is appended afterwards, the result is
still `WRONG_TYPE`. -/
theorem c7_wrong_type_first_match (arr : List MetadataItem) (key : String) (ty : Int)
    (e : MetadataItem) (hfind : arr.find? (fun m => m.key == key) = some e)
    (hne : e.dbus_type ≠ ty) :
    get_value arr key ty = (.WRONG_TYPE, none) ∧
    ∀ v : Value, get_value (arr ++ [⟨key, ty, v⟩]) key ty = (.WRONG_TYPE, none) := by
  have base : ∀ l : List MetadataItem, l.find? (fun m => m.key == key) = some e →
      get_value l key ty = (.WRONG_TYPE, none) := by
    intro l hl
    rw [get_value_of_find_some l key ty e hl]
    simp [hne]
  exact ⟨base arr hfind, fun v => base _ (find_some_of_append hfind)⟩

/-- Witness for C7: an Int32 entry under "k" queried as String yields
`WRONG_TYPE`, also after a later entry matching both key and kind. -/
theorem c7_wrong_type_first_match_witness :
    get_value [⟨"k", DBUS_TYPE_INT32, Value.vi32 3⟩] "k" DBUS_TYPE_STRING =
      (.WRONG_TYPE, none) ∧
    get_value ([⟨"k", DBUS_TYPE_INT32, Value.vi32 3⟩] ++
        [⟨"k", DBUS_TYPE_STRING, Value.vstr "v"⟩]) "k" DBUS_TYPE_STRING =
      (.WRONG_TYPE, none) :=
  have h := c7_wrong_type_first_match [⟨"k", DBUS_TYPE_INT32, Value.vi32 3⟩]
    "k" DBUS_TYPE_STRING ⟨"k", DBUS_TYPE_INT32, Value.vi32 3⟩ (by decide) (by decide)
  ⟨h.1, h.2 (Value.vstr "v")⟩

/-- C10: whenever `get_value` does not return `VALUE_FOUND` (that is, on
`VALUE_NOT_FOUND` or `WRONG_TYPE`), nothing is written through the
caller's `outValue` location; it is written only on `VALUE_FOUND`. -/
theorem c10_out_value_frame (arr : List MetadataItem) (key : String) (ty : Int) :
    (get_value arr key ty).1 = .VALUE_FOUND ∨ (get_value arr key ty).2 = none := by
  induction arr with
  | nil => exact Or.inr rfl
  | cons m rest ih =>
    by_cases h1 : m.key = key
    · by_cases h2 : m.dbus_type ≠ ty
      · simp [get_value, h1, h2]
      · have h2' : m.dbus_type = ty := not_not.mp h2
        by_cases h3 : ty = DBUS_TYPE_INT32
        · simp [get_value, h1, h2, h2', h3]
        · by_cases h4 : ty = DBUS_TYPE_STRING
          · simp [get_value, h1, h2, h2', h3, h4]
          · by_cases h5 : ty = DBUS_TYPE_UINT64
            · simp [get_value, h1, h2, h2', h3, h4, h5]
            · simp [get_value, h1, h2, h2', h3, h4, h5]
    · simpa [get_value, h1] using ih

/-- Counterexample to C2 as stated: with the store already at its
capacity of 100 entries, decoding a single Int32 leaf inserts zero
entries (the insert is dropped), although one leaf primitive was
encountered. -/
theorem c2_counterexample :
    (process_variant (Variant.vint32 7) "k"
        (List.replicate MAXSIZE ⟨"x", DBUS_TYPE_INT32, Value.vi32 0⟩)).1 =
      List.replicate MAXSIZE ⟨"x", DBUS_TYPE_INT32, Value.vi32 0⟩ ∧
    (leafEntries "k" (Variant.vint32 7)).length = 1 := by
  refine ⟨?_, rfl⟩
  show (insert_metadata (List.replicate MAXSIZE ⟨"x", DBUS_TYPE_INT32, Value.vi32 0⟩)
      "k" DBUS_TYPE_INT32 (Value.vi32 7)).1 =
    List.replicate MAXSIZE ⟨"x", DBUS_TYPE_INT32, Value.vi32 0⟩
  rw [insert_metadata_ge _ _ _ _ (by simp)]

/-- C2 amended: provided the store never reaches capacity while decoding
(initial size plus number of leaves at most 100), decoding a tagged
value under key K appends exactly one store entry per leaf primitive, in
the leaves' depth-first original order, each entry keyed K with the
leaf's kind and value (as captured by the spec-side `leafEntries`). -/
theorem c2_decode_leaves (v : Variant) (key : String) (meta : List MetadataItem)
    (hcap : meta.length + (leafEntries key v).length ≤ MAXSIZE) :
    (process_variant v key meta).1 = meta ++ leafEntries key v ∧
    ∀ e : MetadataItem, e ∈ leafEntries key v → e.key = key :=
  ⟨process_variant_leaves v key meta hcap, fun e he => leafEntries_key v key e he⟩

/-- Witness for C2 (amended): decoding a nested array (a string, an
inner array of an int32 and a uint64, then a double) under "k" produces
exactly the four leaf entries, flattened in depth-first order. -/
theorem c2_decode_leaves_witness :
    (process_variant (Variant.varray [Variant.vstr "a",
        Variant.varray [Variant.vint32 5, Variant.vuint64 7], Variant.vdouble 3])
      "k" []).1 =
      [⟨"k", DBUS_TYPE_STRING, Value.vstr "a"⟩, ⟨"k", DBUS_TYPE_INT32, Value.vi32 5⟩,
       ⟨"k", DBUS_TYPE_UINT64, Value.vu64 7⟩, ⟨"k", DBUS_TYPE_DOUBLE, Value.vbits 3⟩] :=
  have h := (c2_decode_leaves (Variant.varray [Variant.vstr "a",
    Variant.varray [Variant.vint32 5, Variant.vuint64 7], Variant.vdouble 3])
    "k" [] (by decide)).1
  h.trans rfl

/-- Counterexample to C5 as stated: decoding a Float64 payload does
store an entry, and its kind `DBUS_TYPE_DOUBLE` is outside
{String, Int32, UInt64}. -/
theorem c5_counterexample :
    (process_variant (Variant.vdouble 42) "k" init_metadata_array).1 =
      [⟨"k", DBUS_TYPE_DOUBLE, Value.vbits 42⟩] ∧
    DBUS_TYPE_DOUBLE ≠ DBUS_TYPE_STRING ∧ DBUS_TYPE_DOUBLE ≠ DBUS_TYPE_INT32 ∧
    DBUS_TYPE_DOUBLE ≠ DBUS_TYPE_UINT64 :=
  ⟨rfl, by decide, by decide, by decide⟩

/-- C5 amended: every entry the decoder ever stores (for any reply) has
kind in {String, Int32, UInt64, Float64}; container (Array) and
unrecognized discriminants are never stored. -/
theorem c5_kinds_invariant (reply : Reply) (e : MetadataItem)
    (he : e ∈ (get_dbus_metadata reply init_metadata_array).1) :
    e.dbus_type = DBUS_TYPE_STRING ∨ e.dbus_type = DBUS_TYPE_INT32 ∨
    e.dbus_type = DBUS_TYPE_UINT64 ∨ e.dbus_type = DBUS_TYPE_DOUBLE := by
  match reply with
  | none => simp [get_dbus_metadata, init_metadata_array] at he
  | some entries =>
    have h := process_dict_kinds entries init_metadata_array e he
    rcases h with h | h
    · simp [init_metadata_array] at h
    · exact h

/-- Witness for C5 (amended): the entry decoded from an Int32 variant
has one of the four primitive kinds. -/
theorem c5_kinds_invariant_witness :
    (⟨"k", DBUS_TYPE_INT32, Value.vi32 3⟩ : MetadataItem).dbus_type = DBUS_TYPE_STRING ∨
    (⟨"k", DBUS_TYPE_INT32, Value.vi32 3⟩ : MetadataItem).dbus_type = DBUS_TYPE_INT32 ∨
    (⟨"k", DBUS_TYPE_INT32, Value.vi32 3⟩ : MetadataItem).dbus_type = DBUS_TYPE_UINT64 ∨
    (⟨"k", DBUS_TYPE_INT32, Value.vi32 3⟩ : MetadataItem).dbus_type = DBUS_TYPE_DOUBLE :=
  c5_kinds_invariant (some [("k", Variant.vint32 3)])
    ⟨"k", DBUS_TYPE_INT32, Value.vi32 3⟩ (by decide)

/-- C8: decoding a tagged value with an unrecognized discriminant `t`
inserts zero store entries and emits a diagnostic identifying the
unhandled kind; sibling array elements around it decode exactly as they
would without it. -/
theorem c8_unrecognized_kind (t : Int) (key : String) (meta : List MetadataItem)
    (pre post : List Variant) :
    process_variant (Variant.vother t) key meta =
      (meta, ["\tUnhandled variant type: " ++ toString t]) ∧
    (process_variant (Variant.varray (pre ++ Variant.vother t :: post)) key meta).1 =
      (process_variant (Variant.varray (pre ++ post)) key meta).1 := by
  refine ⟨rfl, ?_⟩
  show (process_variant_list (pre ++ Variant.vother t :: post) key meta).1 =
    (process_variant_list (pre ++ post) key meta).1
  rw [process_variant_list_append pre (Variant.vother t :: post) key meta,
      process_variant_list_append pre post key meta]
  rfl

/-- Counterexample to C6 as stated: on a reply with no arguments the
`metadata` command still returns 0, so the program's exit code is 0,
not 1. -/
theorem c6_counterexample :
    (command_metadata none).1 = 0 ∧ (0 : Int) ≠ 1 :=
  ⟨rfl, by decide⟩

/-- C6 amended: on a malformed reply (no arguments) the track command
exits 1 (artist/title cannot be found in the empty store), while the
dump/metadata command prints the "Reply does not have arguments!"
diagnostic and exits 0. -/
theorem c6_malformed_reply_exit :
    (command_track none).1 = 1 ∧ (command_metadata none).1 = 0 ∧
    (get_dbus_metadata none init_metadata_array).2 =
      ["Reply does not have arguments!"] :=
  ⟨rfl, rfl, rfl⟩

/-- C9: for the reply {"xesam:artist": ["Radiohead"], "xesam:title":
"Karma Police"} the track command prints exactly
"Radiohead - Karma Police" and returns 0. -/
theorem c9_radiohead_track :
    command_track (some [("xesam:artist", Variant.varray [Variant.vstr "Radiohead"]),
        ("xesam:title", Variant.vstr "Karma Police")]) =
      (0, some "Radiohead - Karma Police") := by
  rfl

end Spotify
